import Mathlib

/-!
Verification of the API key lifecycle manager of the `ml-api-gateway`
service against its design specification.

The development shallowly embeds the Python source:

* `app/core/security.py` — `APIKeyManager` (`generate_key`, `save_key`,
  `delete_old_key`, `reset_key`) and the module-level `verify_api_key`;
* `app/services/auth_services.py` — `verify_user`;
* `app/services/user_service.py` — `create_user`;
* `app/db/models.py` — the `users` and `user_api_keys` tables.

The relational store is a pair of in-memory lists (insertion ordered, as
SQLAlchemy sessions present unordered queries over the test SQLite store),
machine integers are `Nat`, wall-clock readings are explicit parameters,
the bcrypt password context and the environment are explicit arguments,
and Python exceptions are an explicit error type.  `hashlib.sha256` is
embedded as a full executable SHA-256 over byte lists.
-/

namespace MLGateway

/-! ## SHA-256 (`hashlib.sha256(...).hexdigest()`)

A faithful executable FIPS 180-4 SHA-256 over `List Nat` bytes, with
32-bit words represented as `Nat` reduced mod `2 ^ 32`. -/

/-- One lowercase hex digit, as Python's `hexdigest` emits. -/
def hexChar (n : Nat) : Char :=
  "0123456789abcdef".data.getD n '0'

/-- Big-endian hex rendering of a 32-bit word: exactly 8 hex characters. -/
def wordToHex (w : Nat) : List Char :=
  (List.range 8).map (fun i => hexChar (w / 16 ^ (7 - i) % 16))

/-- Right rotation of a 32-bit word. -/
def rotr (n w : Nat) : Nat :=
  (w >>> n) ||| ((w % 2 ^ n) <<< (32 - n))

/-- The SHA-256 `Ch` function. -/
def ch (e f g : Nat) : Nat := (e &&& f) ^^^ ((e ^^^ 0xffffffff) &&& g)

/-- The SHA-256 `Maj` function. -/
def maj (a b c : Nat) : Nat := (a &&& b) ^^^ (a &&& c) ^^^ (b &&& c)

/-- The SHA-256 `Σ₀` function. -/
def bigSigma0 (a : Nat) : Nat := rotr 2 a ^^^ rotr 13 a ^^^ rotr 22 a

/-- The SHA-256 `Σ₁` function. -/
def bigSigma1 (e : Nat) : Nat := rotr 6 e ^^^ rotr 11 e ^^^ rotr 25 e

/-- The SHA-256 `σ₀` function. -/
def smallSigma0 (x : Nat) : Nat := rotr 7 x ^^^ rotr 18 x ^^^ (x >>> 3)

/-- The SHA-256 `σ₁` function. -/
def smallSigma1 (x : Nat) : Nat := rotr 17 x ^^^ rotr 19 x ^^^ (x >>> 10)

/-- The 64 SHA-256 round constants (FIPS 180-4 §4.2.2, in decimal). -/
def K256 : List Nat :=
  [1116352408, 1899447441, 3049323471, 3921009573,
   961987163, 1508970993, 2453635748, 2870763221,
   3624381080, 310598401, 607225278, 1426881987,
   1925078388, 2162078206, 2614888103, 3248222580,
   3835390401, 4022224774, 264347078, 604807628,
   770255983, 1249150122, 1555081692, 1996064986,
   2554220882, 2821834349, 2952996808, 3210313671,
   3336571891, 3584528711, 113926993, 338241895,
   666307205, 773529912, 1294757372, 1396182291,
   1695183700, 1986661051, 2177026350, 2456956037,
   2730485921, 2820302411, 3259730800, 3345764771,
   3516065817, 3600352804, 4094571909, 275423344,
   430227734, 506948616, 659060556, 883997877,
   958139571, 1322822218, 1537002063, 1747873779,
   1955562222, 2024104815, 2227730452, 2361852424,
   2428436474, 2756734187, 3204031479, 3329325298]

/-- The eight 32-bit state words of a SHA-256 computation. -/
structure Digest where
  a : Nat
  b : Nat
  c : Nat
  d : Nat
  e : Nat
  f : Nat
  g : Nat
  h : Nat
deriving DecidableEq

/-- The SHA-256 initial hash value (FIPS 180-4 §5.3.3, in decimal). -/
def initH : Digest :=
  ⟨1779033703, 3144134277, 1013904242, 2773480762,
   1359893119, 2600822924, 528734635, 1541459225⟩

/-- One SHA-256 compression round; `kw` is the pair of the round constant
and the corresponding message-schedule word. -/
def roundStep (st : Digest) (kw : Nat × Nat) : Digest :=
  let t1 := (st.h + bigSigma1 st.e + ch st.e st.f st.g + kw.1 + kw.2) % 2 ^ 32
  let t2 := (bigSigma0 st.a + maj st.a st.b st.c) % 2 ^ 32
  ⟨(t1 + t2) % 2 ^ 32, st.a, st.b, st.c, (st.d + t1) % 2 ^ 32, st.e, st.f, st.g⟩

/-- Append the next message-schedule word to a partial schedule. -/
def extendSchedule (ws : List Nat) : List Nat :=
  let n := ws.length
  ws ++ [(smallSigma1 (ws.getD (n - 2) 0) + ws.getD (n - 7) 0 +
          smallSigma0 (ws.getD (n - 15) 0) + ws.getD (n - 16) 0) % 2 ^ 32]

/-- Extend the 16 block words to the 64-word message schedule. -/
def schedule (w16 : List Nat) : List Nat :=
  (List.range 48).foldl (fun ws _ => extendSchedule ws) w16

/-- Assemble four bytes into one big-endian 32-bit word. -/
def bytesToWord (b0 b1 b2 b3 : Nat) : Nat :=
  ((b0 * 256 + b1) * 256 + b2) * 256 + b3

/-- The sixteen 32-bit words of one 64-byte block. -/
def blockWords (block : List Nat) : List Nat :=
  (List.range 16).map (fun j =>
    bytesToWord (block.getD (4 * j) 0) (block.getD (4 * j + 1) 0)
      (block.getD (4 * j + 2) 0) (block.getD (4 * j + 3) 0))

/-- Compress one 64-byte block into the running hash state. -/
def processBlock (st0 : Digest) (block : List Nat) : Digest :=
  let st := (K256.zip (schedule (blockWords block))).foldl roundStep st0
  ⟨(st0.a + st.a) % 2 ^ 32, (st0.b + st.b) % 2 ^ 32,
   (st0.c + st.c) % 2 ^ 32, (st0.d + st.d) % 2 ^ 32,
   (st0.e + st.e) % 2 ^ 32, (st0.f + st.f) % 2 ^ 32,
   (st0.g + st.g) % 2 ^ 32, (st0.h + st.h) % 2 ^ 32⟩

/-- SHA-256 padding: a `0x80` byte, zeros to 56 mod 64, and the
big-endian 64-bit bit length. -/
def padMessage (msg : List Nat) : List Nat :=
  let padZeros := (119 - msg.length % 64) % 64
  let bitLen := msg.length * 8
  msg ++ [0x80] ++ List.replicate padZeros 0 ++
    (List.range 8).map (fun i => bitLen / 2 ^ (8 * (7 - i)) % 256)

/-- SHA-256 of a byte list. -/
def sha256 (msg : List Nat) : Digest :=
  let padded := padMessage msg
  ((List.range (padded.length / 64)).map
    (fun i => (padded.drop (64 * i)).take 64)).foldl processBlock initH

/-- The 64 lowercase hex characters of a SHA-256 digest, as Python's
`hexdigest()` returns them. -/
def sha256_hexdigest (msg : List Nat) : String :=
  let d := sha256 msg
  String.mk (wordToHex d.a ++ wordToHex d.b ++ wordToHex d.c ++ wordToHex d.d ++
    wordToHex d.e ++ wordToHex d.f ++ wordToHex d.g ++ wordToHex d.h)

/-- UTF-8 encoding of one character, as Python's `str.encode` produces. -/
def utf8EncodeChar (c : Char) : List Nat :=
  let n := c.toNat
  if n < 0x80 then [n]
  else if n < 0x800 then [0xc0 ||| (n >>> 6), 0x80 ||| (n &&& 0x3f)]
  else if n < 0x10000 then
    [0xe0 ||| (n >>> 12), 0x80 ||| ((n >>> 6) &&& 0x3f), 0x80 ||| (n &&& 0x3f)]
  else
    [0xf0 ||| (n >>> 18), 0x80 ||| ((n >>> 12) &&& 0x3f),
     0x80 ||| ((n >>> 6) &&& 0x3f), 0x80 ||| (n &&& 0x3f)]

/-- UTF-8 bytes of a string (`key_base.encode('utf-8')`). -/
def strToBytes (s : String) : List Nat :=
  (s.data.map utf8EncodeChar).flatten

/-! ## Data model and error values -/

/-- A raised Python exception: `fastapi.HTTPException(status_code, detail)`
or `ValueError(msg)`. -/
inductive PyError where
  | httpException (statusCode : Nat) (detail : String)
  | valueError (msg : String)
deriving DecidableEq

/-- `str(e)` of an exception, used where a handler re-wraps an error. -/
def PyError.text : PyError → String
  | .httpException _ detail => detail
  | .valueError msg => msg

/-- Row of the `users` table (`app/db/models.py`), together with the
ad-hoc instance attribute `password` that `verify_user` assigns on the
matched object (it is not a column of the table). -/
structure User where
  id : Nat
  email : String
  hashed_password : String
  created_at : Nat := 0
  password : Option String := none
deriving DecidableEq

/-- Row of the `user_api_keys` table (`app/db/models.py`). -/
structure UserAPIKeys where
  id : Nat
  user_id : Nat
  api_key : String
  created_at : Nat
  updated_at : Nat := 0
deriving DecidableEq

/-- The relational store: both tables, rows in session-presentation
(insertion) order. -/
structure DB where
  users : List User
  user_api_keys : List UserAPIKeys
deriving DecidableEq

/-- `AuthRequest` (`app/schemas/schemas.py`, re-exported for
`app/core/security.py` as `app.schemas.auth_schemas.AuthRequest`): login
credentials. -/
structure AuthRequest where
  email : String
  password : String
deriving DecidableEq

/-- `UserCreate` (`app/schemas/user.py`): a validated registration
request. -/
structure UserCreate where
  email : String
  password : String
deriving DecidableEq

/-- A task queued on FastAPI `BackgroundTasks`: the scheduled
`delete_old_key(user_id, delay_minutes)` call. -/
structure BackgroundTask where
  user_id : Nat
  delay_minutes : Nat
deriving DecidableEq

/-- The process environment slots the manager reads; `os.getenv` yields
`None` when the variable is unset. -/
structure Env where
  apiSalt : Option String
  apiKeyPfx : Option String
deriving DecidableEq

/-- Python falsiness of an `os.getenv` result: unset or empty. -/
def envMissing : Option String → Bool
  | none => true
  | some s => s == ""

/-- `verify_user` (`app/services/auth_services.py`).  The bcrypt context
`pwd_context.verify` is the explicit `pwdVerify` collaborator.  The source
assigns the ad-hoc attribute `password = None` on the matched row; the
`hashed_password` column is untouched. -/
def verify_user (pwdVerify : String → String → Bool) (user : AuthRequest)
    (db : DB) : Except PyError User :=
  match db.users.find? (fun u => u.email == user.email) with
  | some email_user =>
    if pwdVerify user.password email_user.hashed_password then
      .ok { email_user with password := none }
    else .error (.valueError "Credentials do not match!")
  | none => .error (.valueError "Credentials do not match!")

/-! ## `app/core/security.py` — the key lifecycle manager -/

/-- `APIKeyManager._load_private_salt`: fails unless `API_SALT` is set and
non-empty. -/
def load_private_salt (env : Env) : Except PyError String :=
  match env.apiSalt with
  | none => .error (.valueError "Environment variable API_SALT is not set")
  | some s =>
    if s == "" then .error (.valueError "Environment variable API_SALT is not set")
    else .ok s

/-- `APIKeyManager._load_key_prefix`: fails unless `API_KEY_PREFIX` is set
and non-empty. -/
def load_keyPfx (env : Env) : Except PyError String :=
  match env.apiKeyPfx with
  | none => .error (.valueError "Environment variable API_KEY_PREFIX is not set")
  | some s =>
    if s == "" then .error (.valueError "Environment variable API_KEY_PREFIX is not set")
    else .ok s

/-- `APIKeyManager`: the two configuration secrets loaded at construction.
The source field `key_prefix` is named `keyPfx` here. -/
structure APIKeyManager where
  private_salt : String
  keyPfx : String
deriving DecidableEq

/-- `APIKeyManager.__init__`: loads both secrets, failing fast when either
is missing or empty. -/
def mkAPIKeyManager (env : Env) : Except PyError APIKeyManager :=
  match load_private_salt env with
  | .error e => .error e
  | .ok salt =>
    match load_keyPfx env with
    | .error e => .error e
    | .ok pfx => .ok ⟨salt, pfx⟩

/-- `APIKeyManager.generate_key`: SHA-256 of
`email + private_salt + timestamp`, hex encoded, behind the configured
prefix string.  The `datetime.now().timestamp()` reading interpolated into
the key base is the explicit `ts` argument. -/
def APIKeyManager.generate_key (m : APIKeyManager) (email ts : String) : String :=
  let key_base := email ++ m.private_salt ++ ts
  let generated_key := sha256_hexdigest (strToBytes key_base)
  m.keyPfx ++ generated_key

/-- Auto-increment primary key for a new `user_api_keys` row. -/
def nextKeyId (ks : List UserAPIKeys) : Nat :=
  ks.foldr (fun k acc => max k.id acc) 0 + 1

/-- Auto-increment primary key for a new `users` row. -/
def nextUserId (us : List User) : Nat :=
  us.foldr (fun u acc => max u.id acc) 0 + 1

/-- `APIKeyManager.save_key`.  `ts` is the timestamp string read inside
`generate_key`; `now` is the `datetime.now()` reading stored in the new
row.  The outcome is paired with the session state. -/
def APIKeyManager.save_key (m : APIKeyManager) (user_id : Nat) (db : DB)
    (ts : String) (now : Nat) : Except PyError String × DB :=
  match db.user_api_keys.find? (fun k => k.user_id == user_id) with
  | some existing_key => (.ok existing_key.api_key, db)
  | none =>
    match db.users.find? (fun u => u.id == user_id) with
    | none =>
      (.error (.httpException 404 ("User with ID " ++ toString user_id ++ " not found")), db)
    | some user =>
      let api_key := m.generate_key user.email ts
      let new_key : UserAPIKeys :=
        { id := nextKeyId db.user_api_keys, user_id := user_id,
          api_key := api_key, created_at := now, updated_at := now }
      (.ok api_key, { db with user_api_keys := db.user_api_keys ++ [new_key] })

/-- The `order_by(UserAPIKeys.created_at.desc())` ordering relation. -/
def createdDescRel (a b : UserAPIKeys) : Prop := b.created_at ≤ a.created_at

instance : DecidableRel createdDescRel :=
  fun a b => Nat.decLe b.created_at a.created_at

instance : IsTotal UserAPIKeys createdDescRel :=
  ⟨fun a b => Nat.le_total b.created_at a.created_at⟩

instance : IsTrans UserAPIKeys createdDescRel :=
  ⟨fun _ _ _ hab hbc => Nat.le_trans hbc hab⟩

/-- `APIKeyManager.delete_old_key`, after its `asyncio.sleep`: collect the
key rows of the user beyond the head of the created-at-descending ordering
(`offset(1)`), delete each collected row (by primary key), commit. -/
def delete_old_key (db : DB) (user_id : Nat) : DB :=
  let old_keys :=
    (List.insertionSort createdDescRel
      (db.user_api_keys.filter (fun k => k.user_id == user_id))).drop 1
  let oldIds := old_keys.map (fun k => k.id)
  { db with user_api_keys := db.user_api_keys.filter (fun k => !(oldIds.contains k.id)) }

/-- `APIKeyManager.reset_key`: re-authenticate, insert a brand-new key
row, and queue deletion of the older rows on `background_tasks`.  A
`ValueError` from `verify_user` resurfaces as HTTP 400, any other
exception as HTTP 500. -/
def APIKeyManager.reset_key (m : APIKeyManager)
    (pwdVerify : String → String → Bool) (user : AuthRequest) (db : DB)
    (ts : String) (now : Nat) :
    Except PyError String × DB × List BackgroundTask :=
  match verify_user pwdVerify user db with
  | .error (.valueError e) => (.error (.httpException 400 e), db, [])
  | .error e => (.error (.httpException 500 e.text), db, [])
  | .ok current_user =>
    let new_api_key := m.generate_key current_user.email ts
    let store_key : UserAPIKeys :=
      { id := nextKeyId db.user_api_keys, user_id := current_user.id,
        api_key := new_api_key, created_at := now, updated_at := now }
    (.ok new_api_key,
     { db with user_api_keys := db.user_api_keys ++ [store_key] },
     [{ user_id := current_user.id, delay_minutes := 5 }])

/-- `verify_api_key` (`app/core/security.py`): exact-match key lookup,
then owner lookup; a read-only operation, so the session is returned
unchanged. -/
def verify_api_key (api_key : String) (db : DB) : Except PyError User × DB :=
  match db.user_api_keys.find? (fun k => k.api_key == api_key) with
  | none => (.error (.httpException 401 "Unauthorized"), db)
  | some key_record =>
    match db.users.find? (fun u => u.id == key_record.user_id) with
    | none => (.error (.httpException 404 "User not found"), db)
    | some user => (.ok user, db)

/-! ## `app/services/user_service.py` — registration -/

/-- `create_user` (`app/services/user_service.py`).  `pwdHash` is the
bcrypt `pwd_context.hash` collaborator; `env` feeds the `APIKeyManager()`
constructed inside; `ts` and `now` are the clock readings of the inner
`save_key`.  The session state is returned alongside the outcome, since a
raised exception leaves already-committed work in place. -/
def create_user (pwdHash : String → String) (env : Env)
    (user_data : UserCreate) (db : DB) (ts : String) (now : Nat) :
    Except PyError User × DB :=
  match db.users.find? (fun u => u.email == user_data.email) with
  | some _ => (.error (.valueError "Email already registered."), db)
  | none =>
    let hashed_password := pwdHash user_data.password
    let new_user : User :=
      { id := nextUserId db.users, email := user_data.email,
        hashed_password := hashed_password, created_at := now }
    let db1 : DB := { db with users := db.users ++ [new_user] }
    match mkAPIKeyManager env with
    | .error e => (.error e, db1)
    | .ok m =>
      match m.save_key new_user.id db1 ts now with
      | (.error e, db2) => (.error e, db2)
      | (.ok _, db2) => (.ok new_user, db2)

/-! ## Helper lemmas -/

theorem wordToHex_length (w : Nat) : (wordToHex w).length = 8 := by
  simp [wordToHex]

theorem sha256_hexdigest_length (msg : List Nat) :
    (sha256_hexdigest msg).length = 64 := by
  simp [sha256_hexdigest, wordToHex_length]

theorem generate_key_length (m : APIKeyManager) (email ts : String) :
    (m.generate_key email ts).length = m.keyPfx.length + 64 := by
  simp [APIKeyManager.generate_key, sha256_hexdigest_length]

theorem id_lt_nextKeyId {ks : List UserAPIKeys} {k : UserAPIKeys}
    (hk : k ∈ ks) : k.id < nextKeyId ks := by
  have h : ∀ l : List UserAPIKeys, k ∈ l →
      k.id ≤ l.foldr (fun x acc => max x.id acc) 0 := by
    intro l
    induction l with
    | nil => intro h; cases h
    | cons a as ih =>
      intro h
      rcases List.mem_cons.mp h with h | h
      · subst h; exact Nat.le_max_left _ _
      · exact (ih h).trans (Nat.le_max_right _ _)
  exact Nat.lt_succ_of_le (h ks hk)

/-- The row that `save_key` and `reset_key` insert for user `uid` with
key string `key` at time `now`. -/
def insertedRow (db : DB) (uid : Nat) (key : String) (now : Nat) : UserAPIKeys :=
  { id := nextKeyId db.user_api_keys, user_id := uid, api_key := key,
    created_at := now, updated_at := now }

theorem save_key_fresh (m : APIKeyManager) (uid : Nat) (db : DB)
    (ts : String) (now : Nat) (u : User)
    (hnone : db.user_api_keys.find? (fun x => x.user_id == uid) = none)
    (hu : db.users.find? (fun x => x.id == uid) = some u) :
    m.save_key uid db ts now =
      (.ok (m.generate_key u.email ts),
       { db with user_api_keys := db.user_api_keys ++
           [insertedRow db uid (m.generate_key u.email ts) now] }) := by
  simp [APIKeyManager.save_key, hnone, hu, insertedRow]

theorem reset_key_ok (m : APIKeyManager) (pv : String → String → Bool)
    (req : AuthRequest) (db : DB) (ts : String) (now : Nat) (U : User)
    (hfind : db.users.find? (fun x => x.email == req.email) = some U)
    (hpw : pv req.password U.hashed_password = true) :
    m.reset_key pv req db ts now =
      (.ok (m.generate_key U.email ts),
       { db with user_api_keys := db.user_api_keys ++
           [insertedRow db U.id (m.generate_key U.email ts) now] },
       [⟨U.id, 5⟩]) := by
  simp [APIKeyManager.reset_key, verify_user, hfind, hpw, insertedRow]

theorem verify_api_key_none {key : String} {db : DB}
    (h : db.user_api_keys.find? (fun k => k.api_key == key) = none) :
    verify_api_key key db = (.error (.httpException 401 "Unauthorized"), db) := by
  unfold verify_api_key
  simp only [h]

theorem verify_api_key_found {key : String} {db : DB} {k : UserAPIKeys} {u : User}
    (hk : db.user_api_keys.find? (fun x => x.api_key == key) = some k)
    (hu : db.users.find? (fun x => x.id == k.user_id) = some u) :
    verify_api_key key db = (.ok u, db) := by
  unfold verify_api_key
  simp only [hk, hu]

theorem insertionSort_strict_max (l : List UserAPIKeys) (r : UserAPIKeys)
    (hr : r ∈ l) (hmax : ∀ x ∈ l, x ≠ r → x.created_at < r.created_at) :
    ∃ t, List.insertionSort createdDescRel l = r :: t ∧
      (∀ x ∈ t, x ∈ l) ∧ (∀ x ∈ l, x ≠ r → x ∈ t) ∧
      (List.count r l = 1 → r ∉ t) := by
  have hperm := List.perm_insertionSort createdDescRel l
  have hsorted := List.sorted_insertionSort createdDescRel l
  rcases hs : List.insertionSort createdDescRel l with _ | ⟨a, t⟩
  · rw [hs] at hperm
    exact absurd (hperm.symm.mem_iff.mp hr) (List.not_mem_nil r)
  · rw [hs] at hperm hsorted
    have hta : ∀ x ∈ t, x.created_at ≤ a.created_at :=
      fun x hx => (List.sorted_cons.mp hsorted).1 x hx
    have hamem : a ∈ l := hperm.mem_iff.mp (List.mem_cons_self a t)
    have har : a = r := by
      by_contra hne
      have h1 : a.created_at < r.created_at := hmax a hamem hne
      rcases List.mem_cons.mp (hperm.symm.mem_iff.mp hr) with h | h
      · exact hne h.symm
      · have h2 := hta r h
        omega
    subst har
    refine ⟨t, rfl, ?_, ?_, ?_⟩
    · exact fun x hx => hperm.mem_iff.mp (List.mem_cons_of_mem a hx)
    · intro x hx hne
      rcases List.mem_cons.mp (hperm.symm.mem_iff.mp hx) with h | h
      · exact absurd h hne
      · exact h
    · intro hcount hmem
      have hc := hperm.count_eq a
      rw [List.count_cons_self, hcount] at hc
      have h0 : List.count a t = 0 := by omega
      exact List.count_eq_zero.mp h0 hmem

theorem filter_eq_singleton_of_unique {α : Type} [DecidableEq α]
    {l : List α} {r : α} {pred : α → Bool}
    (h1 : ∀ x ∈ l, pred x = true ↔ x = r) (hc : List.count r l = 1) :
    l.filter pred = [r] := by
  induction l with
  | nil => simp at hc
  | cons a as ih =>
    by_cases hpa : pred a = true
    · have har : a = r := (h1 a (List.mem_cons_self a as)).mp hpa
      subst har
      rw [List.count_cons_self] at hc
      have hc0 : List.count a as = 0 := by omega
      have hnil : as.filter pred = [] := by
        rw [List.filter_eq_nil_iff]
        intro x hx hpx
        have hxa : x = a := (h1 x (List.mem_cons_of_mem a hx)).mp hpx
        subst hxa
        exact List.count_eq_zero.mp hc0 hx
      rw [List.filter_cons_of_pos hpa, hnil]
    · have hne : a ≠ r := fun h => hpa ((h1 a (List.mem_cons_self a as)).mpr h)
      rw [List.count_cons_of_ne (fun h => hne h.symm)] at hc
      rw [List.filter_cons_of_neg hpa]
      exact ih (fun x hx => h1 x (List.mem_cons_of_mem a hx)) hc

theorem delete_old_key_keeps_newest (db : DB) (uid : Nat) (r : UserAPIKeys)
    (hr : r ∈ db.user_api_keys) (hruid : r.user_id = uid)
    (hmax : ∀ x ∈ db.user_api_keys, x.user_id = uid → x ≠ r →
      x.created_at < r.created_at)
    (hcount : List.count r db.user_api_keys = 1)
    (hidfresh : ∀ x ∈ db.user_api_keys, x ≠ r → x.id ≠ r.id) :
    r ∈ (delete_old_key db uid).user_api_keys ∧
    (∀ x ∈ (delete_old_key db uid).user_api_keys, x ∈ db.user_api_keys) ∧
    (∀ x ∈ db.user_api_keys, x.user_id = uid → x ≠ r →
      x ∉ (delete_old_key db uid).user_api_keys) ∧
    (delete_old_key db uid).user_api_keys.filter (fun k => k.user_id == uid) = [r] := by
  have hrmemf : r ∈ db.user_api_keys.filter (fun k => k.user_id == uid) :=
    List.mem_filter.mpr ⟨hr, by simp [hruid]⟩
  have hmaxf : ∀ x ∈ db.user_api_keys.filter (fun k => k.user_id == uid),
      x ≠ r → x.created_at < r.created_at := by
    intro x hx hne
    have hx' := List.mem_filter.mp hx
    exact hmax x hx'.1 (by simpa using hx'.2) hne
  obtain ⟨t, hsortEq, htsub, hintot, hnotin⟩ :=
    insertionSort_strict_max (db.user_api_keys.filter (fun k => k.user_id == uid))
      r hrmemf hmaxf
  have hcountf : List.count r (db.user_api_keys.filter (fun k => k.user_id == uid)) = 1 := by
    rw [List.count_filter (by simp [hruid])]
    exact hcount
  have hrnotint : r ∉ t := hnotin hcountf
  have htprops : ∀ y ∈ t, y ∈ db.user_api_keys ∧ y.user_id = uid ∧ y ≠ r := by
    intro y hy
    have hy' := List.mem_filter.mp (htsub y hy)
    exact ⟨hy'.1, by simpa using hy'.2, fun h => hrnotint (h ▸ hy)⟩
  have hqr : ((t.map (fun x => x.id)).contains r.id) = false := by
    by_contra hcontra
    have hcontra' : ((t.map (fun x => x.id)).contains r.id) = true := by
      revert hcontra
      cases (t.map (fun x => x.id)).contains r.id <;> simp
    obtain ⟨b, hb, hbeq⟩ := List.contains_iff_exists_mem_beq.mp hcontra'
    obtain ⟨y, hy, hyid⟩ := List.mem_map.mp hb
    have hyne := (htprops y hy).2.2
    have : r.id = y.id := by rw [← hyid] at hbeq; simpa using hbeq
    exact hidfresh y (htprops y hy).1 hyne this.symm
  have hdel : (delete_old_key db uid).user_api_keys =
      db.user_api_keys.filter
        (fun k => !((t.map (fun x => x.id)).contains k.id)) := by
    unfold delete_old_key
    rw [hsortEq]
    rfl
  have hqx : ∀ x ∈ db.user_api_keys, x.user_id = uid → x ≠ r →
      ((t.map (fun y => y.id)).contains x.id) = true := by
    intro x hx hxuid hxne
    have hxt : x ∈ t := hintot x (List.mem_filter.mpr ⟨hx, by simp [hxuid]⟩) hxne
    exact List.contains_iff_exists_mem_beq.mpr ⟨x.id, List.mem_map.mpr ⟨x, hxt, rfl⟩, by simp⟩
  refine ⟨?_, ?_, ?_, ?_⟩
  · rw [hdel]
    exact List.mem_filter.mpr ⟨hr, by rw [hqr]; rfl⟩
  · intro x hx
    rw [hdel] at hx
    exact (List.mem_filter.mp hx).1
  · intro x hx hxuid hxne hxin
    rw [hdel] at hxin
    have := (List.mem_filter.mp hxin).2
    rw [hqx x hx hxuid hxne] at this
    simp at this
  · rw [hdel, List.filter_filter]
    refine filter_eq_singleton_of_unique ?_ hcount
    intro x hx
    constructor
    · intro hpq
      have h1 := (Bool.and_eq_true_iff.mp hpq).1
      have h2 := (Bool.and_eq_true_iff.mp hpq).2
      by_contra hxne
      have := hqx x hx (by simpa using h1) hxne
      rw [this] at h2
      simp at h2
    · intro hxr
      subst hxr
      rw [Bool.and_eq_true_iff]
      exact ⟨by simp [hruid], by rw [hqr]; rfl⟩

/-! ## Claim theorems -/

/-- C5: for every email, `generate_key(email)` equals the configured key
prefix followed by the hex-encoded SHA-256 digest of
`email + private_salt + current_timestamp`; consequently every generated
key starts with the configured prefix and is strictly longer than it. -/
theorem C5_generate_key_format (m : APIKeyManager) (email ts : String) :
    m.generate_key email ts =
      m.keyPfx ++ sha256_hexdigest (strToBytes (email ++ m.private_salt ++ ts)) ∧
    m.keyPfx.data <+: (m.generate_key email ts).data ∧
    m.keyPfx.length < (m.generate_key email ts).length := by
  refine ⟨rfl, ?_, ?_⟩
  · exact ⟨(sha256_hexdigest (strToBytes (email ++ m.private_salt ++ ts))).data,
      by simp [APIKeyManager.generate_key]⟩
  · have h := generate_key_length m email ts
    omega

/-- C6: constructing the manager fails exactly when the salt or the
prefix configuration value is missing or empty; a successfully
constructed manager never raises a configuration error afterwards: the
only error `save_key` can return is its own 404, and the only error
`reset_key` can return is the 400 wrapping the credentials mismatch. -/
theorem C6_construction_checks_config (env : Env) :
    ((∃ e, mkAPIKeyManager env = .error e) ↔
      (envMissing env.apiSalt || envMissing env.apiKeyPfx) = true) ∧
    (∀ m, mkAPIKeyManager env = .ok m →
      (∀ uid db ts now e, (m.save_key uid db ts now).1 = .error e →
        e = .httpException 404 ("User with ID " ++ toString uid ++ " not found")) ∧
      (∀ pv req db ts now e, (m.reset_key pv req db ts now).1 = .error e →
        e = .httpException 400 "Credentials do not match!")) := by
  constructor
  · rcases env with ⟨salt, pfx⟩
    rcases salt with _ | s
    · simp [mkAPIKeyManager, load_private_salt, envMissing]
    · rcases pfx with _ | p
      · by_cases hs : s = "" <;>
          simp_all [mkAPIKeyManager, load_private_salt, load_keyPfx, envMissing]
      · by_cases hs : s = "" <;> by_cases hp : p = "" <;>
          simp_all [mkAPIKeyManager, load_private_salt, load_keyPfx, envMissing]
  · intro m _
    constructor
    · intro uid db ts now e herr
      unfold APIKeyManager.save_key at herr
      rcases hf : db.user_api_keys.find? (fun k => k.user_id == uid) with _ | k
      · rcases hu : db.users.find? (fun u => u.id == uid) with _ | u
        · rw [hf, hu] at herr
          simpa using herr.symm
        · rw [hf, hu] at herr
          simp at herr
      · rw [hf] at herr
        simp at herr
    · intro pv req db ts now e herr
      unfold APIKeyManager.reset_key verify_user at herr
      rcases hf : db.users.find? (fun u => u.email == req.email) with _ | u
      · rw [hf] at herr
        simpa using herr.symm
      · rw [hf] at herr
        by_cases hp : pv req.password u.hashed_password <;> simp [hp] at herr
        exact herr.symm

theorem C6_construction_checks_config_witness :
    (∃ e, mkAPIKeyManager ⟨none, some "sk_live_"⟩ = Except.error e) ∧
    PyError.httpException 404 ("User with ID " ++ toString 7 ++ " not found") =
      PyError.httpException 404 ("User with ID " ++ toString 7 ++ " not found") ∧
    PyError.httpException 400 "Credentials do not match!" =
      PyError.httpException 400 "Credentials do not match!" :=
  ⟨(C6_construction_checks_config ⟨none, some "sk_live_"⟩).1.mpr (by decide),
   ((C6_construction_checks_config ⟨some "s", some "p"⟩).2 ⟨"s", "p"⟩ rfl).1
     7 ⟨[], []⟩ "1" 1 _ rfl,
   ((C6_construction_checks_config ⟨some "s", some "p"⟩).2 ⟨"s", "p"⟩ rfl).2
     (fun _ _ => true) ⟨"a@b.c", "pw"⟩ ⟨[], []⟩ "1" 1 _ rfl⟩

/-- C4: `verify_api_key` fails with 401 Unauthorized exactly when no
stored key row matches the presented string; a matching row whose owning
user is absent gives 404 instead; a matching row with its owner present
returns that owner; and the session is returned unchanged in all cases. -/
theorem C4_verify_key_error_taxonomy (api_key : String) (db : DB) :
    ((verify_api_key api_key db).1 = .error (.httpException 401 "Unauthorized") ↔
      ∀ k ∈ db.user_api_keys, k.api_key ≠ api_key) ∧
    (∀ k, db.user_api_keys.find? (fun x => x.api_key == api_key) = some k →
      (∀ u ∈ db.users, u.id ≠ k.user_id) →
      (verify_api_key api_key db).1 = .error (.httpException 404 "User not found")) ∧
    (∀ k u, db.user_api_keys.find? (fun x => x.api_key == api_key) = some k →
      db.users.find? (fun x => x.id == k.user_id) = some u →
      (verify_api_key api_key db).1 = .ok u) ∧
    (verify_api_key api_key db).2 = db := by
  rcases hk : db.user_api_keys.find? (fun x => x.api_key == api_key) with _ | k
  · rw [List.find?_eq_none] at hk
    refine ⟨⟨fun _ k hkmem => ?_, fun _ => ?_⟩, fun k hfind => ?_, fun k u hfind => ?_, ?_⟩
    · have := hk k hkmem
      simpa using this
    · have hnone : db.user_api_keys.find? (fun x => x.api_key == api_key) = none :=
        List.find?_eq_none.mpr hk
      simp [verify_api_key, hnone]
    · rw [List.find?_eq_none.mpr hk] at hfind; cases hfind
    · rw [List.find?_eq_none.mpr hk] at hfind; cases hfind
    · simp [verify_api_key, List.find?_eq_none.mpr hk]
  · have hkmem := List.mem_of_find?_eq_some hk
    have hkey : k.api_key = api_key := by simpa using List.find?_some hk
    refine ⟨⟨fun h401 => ?_, fun habs => absurd hkey (habs k hkmem)⟩,
      fun k' hfind hnouser => ?_, fun k' u hfind hu => ?_, ?_⟩
    · exfalso
      rcases hu : db.users.find? (fun x => x.id == k.user_id) with _ | u <;>
        simp [verify_api_key, hk, hu] at h401
    · obtain rfl : k = k' := by rw [hk] at hfind; injection hfind
      have hnone : db.users.find? (fun x => x.id == k.user_id) = none :=
        List.find?_eq_none.mpr (fun u humem => by
          simpa using hnouser u humem)
      simp [verify_api_key, hk, hnone]
    · obtain rfl : k = k' := by rw [hk] at hfind; injection hfind
      simp [verify_api_key, hk, hu]
    · rcases hu : db.users.find? (fun x => x.id == k.user_id) with _ | u <;>
        simp [verify_api_key, hk, hu]

/-- Sample user for concrete witnesses. -/
def wUser : User := { id := 1, email := "user@email.com", hashed_password := "hash1" }

/-- Sample key row owned by `wUser`. -/
def wKey : UserAPIKeys := { id := 1, user_id := 1, api_key := "key1", created_at := 5 }

/-- Sample store holding `wUser` and `wKey`. -/
def wDB : DB := ⟨[wUser], [wKey]⟩

/-- Sample key row whose owning user is absent from `wOrphanDB`. -/
def wOrphanKey : UserAPIKeys := { id := 2, user_id := 99, api_key := "okey", created_at := 5 }

/-- Sample store with a key row but no matching user row. -/
def wOrphanDB : DB := ⟨[wUser], [wOrphanKey]⟩

/-- Sample manager with dummy secrets. -/
def wMgr : APIKeyManager := ⟨"salty", "sk_live_"⟩

theorem C4_verify_key_error_taxonomy_witness :
    (verify_api_key "absent" wDB).1 = .error (.httpException 401 "Unauthorized") ∧
    (verify_api_key "okey" wOrphanDB).1 = .error (.httpException 404 "User not found") ∧
    (verify_api_key "key1" wDB).1 = .ok wUser :=
  ⟨(C4_verify_key_error_taxonomy "absent" wDB).1.mpr (by decide),
   (C4_verify_key_error_taxonomy "okey" wOrphanDB).2.1 wOrphanKey (by decide) (by decide),
   (C4_verify_key_error_taxonomy "key1" wDB).2.2.1 wKey wUser (by decide) (by decide)⟩

/-- C8: both failure modes of `verify_user` produce the identical generic
`ValueError` — unknown email, and known email whose password does not
verify against the stored hash — so the caller cannot tell which field
was wrong. -/
theorem C8_uniform_credentials_error (pv : String → String → Bool)
    (req : AuthRequest) (db : DB) :
    ((∀ u ∈ db.users, u.email ≠ req.email) →
      verify_user pv req db = .error (.valueError "Credentials do not match!")) ∧
    (∀ u, db.users.find? (fun x => x.email == req.email) = some u →
      pv req.password u.hashed_password = false →
      verify_user pv req db = .error (.valueError "Credentials do not match!")) := by
  constructor
  · intro habs
    have hnone : db.users.find? (fun x => x.email == req.email) = none :=
      List.find?_eq_none.mpr (fun u humem => by simpa using habs u humem)
    simp [verify_user, hnone]
  · intro u hfind hpw
    simp [verify_user, hfind, hpw]

theorem C8_uniform_credentials_error_witness :
    verify_user (fun p h => p == "pw" && h == "hash1") ⟨"ghost@email.com", "pw"⟩ wDB =
      .error (.valueError "Credentials do not match!") ∧
    verify_user (fun p h => p == "pw" && h == "hash1") ⟨"user@email.com", "bad"⟩ wDB =
      .error (.valueError "Credentials do not match!") :=
  ⟨(C8_uniform_credentials_error (fun p h => p == "pw" && h == "hash1")
      ⟨"ghost@email.com", "pw"⟩ wDB).1 (by decide),
   (C8_uniform_credentials_error (fun p h => p == "pw" && h == "hash1")
      ⟨"user@email.com", "bad"⟩ wDB).2 wUser (by decide) (by decide)⟩

/-- C10: in `save_key` the existing-key lookup precedes the user lookup:
with a stored key row for `user_id` and no matching user row the stored
key string is returned (no 404), and an error is only reachable when the
user has no stored key row at all. -/
theorem C10_key_check_precedes_user_check (m : APIKeyManager) (uid : Nat)
    (db : DB) (ts : String) (now : Nat) :
    (∀ k, db.user_api_keys.find? (fun x => x.user_id == uid) = some k →
      (∀ u ∈ db.users, u.id ≠ uid) →
      m.save_key uid db ts now = (.ok k.api_key, db)) ∧
    (∀ e, (m.save_key uid db ts now).1 = .error e →
      db.user_api_keys.find? (fun x => x.user_id == uid) = none) := by
  constructor
  · intro k hfind _
    simp [APIKeyManager.save_key, hfind]
  · intro e herr
    rcases hfind : db.user_api_keys.find? (fun x => x.user_id == uid) with _ | k
    · exact hfind
    · simp [APIKeyManager.save_key, hfind] at herr

theorem C10_key_check_precedes_user_check_witness :
    wMgr.save_key 99 wOrphanDB "1000" 10 = (.ok "okey", wOrphanDB) ∧
    wOrphanDB.user_api_keys.find? (fun x => x.user_id == 7) = none :=
  ⟨(C10_key_check_precedes_user_check wMgr 99 wOrphanDB "1000" 10).1
      wOrphanKey (by decide) (by decide),
   (C10_key_check_precedes_user_check wMgr 7 wOrphanDB "1000" 10).2 _ rfl⟩

/-- C9: a second registration attempt with an email that already has a
user row fails with the duplicate-email error before any mutation: the
returned session state is exactly the input state, so no second user row
and no key row exist. -/
theorem C9_duplicate_registration (pwdHash : String → String) (env : Env)
    (ud : UserCreate) (db : DB) (ts : String) (now : Nat) (u : User)
    (hu : u ∈ db.users) (hemail : u.email = ud.email) :
    create_user pwdHash env ud db ts now =
      (.error (.valueError "Email already registered."), db) := by
  have hsome : (db.users.find? (fun x => x.email == ud.email)).isSome :=
    List.find?_isSome.mpr ⟨u, hu, by simp [hemail]⟩
  rcases hfind : db.users.find? (fun x => x.email == ud.email) with _ | w
  · rw [hfind] at hsome; cases hsome
  · simp [create_user, hfind]

theorem C9_duplicate_registration_witness :
    create_user (fun p => p ++ "-hashed") ⟨some "salty", some "sk_live_"⟩
      ⟨"user@email.com", "User@123"⟩ wDB "1000" 10 =
      (.error (.valueError "Email already registered."), wDB) :=
  C9_duplicate_registration (fun p => p ++ "-hashed") ⟨some "salty", some "sk_live_"⟩
    ⟨"user@email.com", "User@123"⟩ wDB "1000" 10 wUser (by decide) rfl

/-- C7 (failing input for the claim): with matching credentials,
`verify_user` returns the user with the `hashed_password` column still
populated with the stored bcrypt hash — the source only sets the ad-hoc
`password` attribute to `None` — so the password-hash field is carried
outward, contrary to the claim. -/
theorem C7_hash_still_populated :
    verify_user (fun p h => p == "User@123" && h == "bcrypt-hash-value")
        ⟨"user@email.com", "User@123"⟩
        ⟨[{ id := 1, email := "user@email.com",
            hashed_password := "bcrypt-hash-value" }], []⟩ =
      .ok { id := 1, email := "user@email.com",
            hashed_password := "bcrypt-hash-value", password := none } := by
  rfl

/-- C2: `save_key` is idempotent: with an existing key row the stored key
string is returned and the session state is unchanged; with no key row,
two successive calls return the same key string both times and leave
exactly one key row for the user. -/
theorem C2_idempotent_issuance (m : APIKeyManager) (uid : Nat) (db : DB)
    (ts ts' : String) (now now' : Nat) :
    (∀ k, db.user_api_keys.find? (fun x => x.user_id == uid) = some k →
      m.save_key uid db ts now = (.ok k.api_key, db)) ∧
    (∀ u, db.users.find? (fun x => x.id == uid) = some u →
      (∀ k ∈ db.user_api_keys, k.user_id ≠ uid) →
      ∃ key db1, m.save_key uid db ts now = (.ok key, db1) ∧
        m.save_key uid db1 ts' now' = (.ok key, db1) ∧
        (db1.user_api_keys.filter (fun x => x.user_id == uid)).length = 1) := by
  constructor
  · intro k hfind
    simp [APIKeyManager.save_key, hfind]
  · intro u hu hnokey
    have hnone : db.user_api_keys.find? (fun x => x.user_id == uid) = none :=
      List.find?_eq_none.mpr (fun k hk => by simpa using hnokey k hk)
    refine ⟨m.generate_key u.email ts,
      { db with user_api_keys := db.user_api_keys ++
          [insertedRow db uid (m.generate_key u.email ts) now] },
      save_key_fresh m uid db ts now u hnone hu, ?_, ?_⟩
    · simp [APIKeyManager.save_key, hnone, insertedRow]
    · rw [List.filter_append, List.filter_eq_nil_iff.mpr
        (fun k hk => by simpa using hnokey k hk)]
      simp [insertedRow]

theorem C2_idempotent_issuance_witness :
    wMgr.save_key 1 wDB "1000" 10 = (.ok "key1", wDB) ∧
    (∃ key db1, wMgr.save_key 1 ⟨[wUser], []⟩ "1000" 10 = (.ok key, db1) ∧
      wMgr.save_key 1 db1 "2000" 20 = (.ok key, db1) ∧
      (db1.user_api_keys.filter (fun x => x.user_id == 1)).length = 1) :=
  ⟨(C2_idempotent_issuance wMgr 1 wDB "1000" "2000" 10 20).1 wKey (by decide),
   (C2_idempotent_issuance wMgr 1 ⟨[wUser], []⟩ "1000" "2000" 10 20).2 wUser
     (by decide) (by decide)⟩

/-- C3: verify round-trip: when the key store rows carry pairwise
distinct key strings, a user `U` whose key row is stored is returned by
`verify_key` on that key string: the call succeeds with a user whose id
is `U.id`. -/
theorem C3_verify_round_trip (db : DB) (U : User) (k : UserAPIKeys)
    (hk : k ∈ db.user_api_keys) (howner : k.user_id = U.id)
    (hkeys : (db.user_api_keys.map (fun x => x.api_key)).Nodup)
    (hfind : db.users.find? (fun x => x.id == U.id) = some U) :
    ∃ u, (verify_api_key k.api_key db).1 = .ok u ∧ u.id = U.id := by
  have hs : (db.user_api_keys.find? (fun x => x.api_key == k.api_key)).isSome :=
    List.find?_isSome.mpr ⟨k, hk, by simp⟩
  rcases hfind2 : db.user_api_keys.find? (fun x => x.api_key == k.api_key) with _ | k2
  · rw [hfind2] at hs; cases hs
  · have hmem2 := List.mem_of_find?_eq_some hfind2
    have hkey2 : k2.api_key = k.api_key := by simpa using List.find?_some hfind2
    have hkk : k2 = k := List.inj_on_of_nodup_map hkeys hmem2 hk hkey2
    subst hkk
    refine ⟨U, ?_, rfl⟩
    simp [verify_api_key, hfind2, howner, hfind]

theorem C3_verify_round_trip_witness :
    ∃ u, (verify_api_key "key1" wDB).1 = .ok u ∧ u.id = 1 := by
  have h := C3_verify_round_trip wDB wUser wKey (by decide) (by decide)
    (by decide) (by decide)
  simpa [wKey] using h

/-- C1: rotation grace window.  For a user `U` already holding a key row
`rowOld`, a successful `reset_key` inserts the freshly generated key as a
new row while keeping the old row, and schedules one `delete_old_key`
task for `U`; immediately afterwards `verify_key` succeeds (returning
`U`) on both the old and the new key string; and once `delete_old_key`
runs, only the most-recently-created key row of `U` remains, so
`verify_key` fails with 401 on the old key and still succeeds on the new
one.  Hypotheses: the credentials match, stored key strings are pairwise
distinct and differ from the fresh key, the user row is findable by id,
and all of the user's existing key rows are strictly older than the
insertion time. -/
theorem C1_rotation_grace_window (m : APIKeyManager)
    (pv : String → String → Bool) (req : AuthRequest) (db : DB)
    (ts : String) (now : Nat) (U : User) (rowOld : UserAPIKeys)
    (hfind : db.users.find? (fun x => x.email == req.email) = some U)
    (hpw : pv req.password U.hashed_password = true)
    (hmem : rowOld ∈ db.user_api_keys)
    (howner : rowOld.user_id = U.id)
    (hbyid : db.users.find? (fun x => x.id == U.id) = some U)
    (hkeys : (db.user_api_keys.map (fun x => x.api_key)).Nodup)
    (hnewfresh : ∀ k ∈ db.user_api_keys, k.api_key ≠ m.generate_key U.email ts)
    (holder : ∀ k ∈ db.user_api_keys, k.user_id = U.id → k.created_at < now) :
    ∃ db1,
      m.reset_key pv req db ts now =
        (.ok (m.generate_key U.email ts), db1, [⟨U.id, 5⟩]) ∧
      db1.user_api_keys =
        db.user_api_keys ++ [insertedRow db U.id (m.generate_key U.email ts) now] ∧
      (verify_api_key rowOld.api_key db1).1 = .ok U ∧
      (verify_api_key (m.generate_key U.email ts) db1).1 = .ok U ∧
      (delete_old_key db1 U.id).user_api_keys.filter (fun k => k.user_id == U.id) =
        [insertedRow db U.id (m.generate_key U.email ts) now] ∧
      (verify_api_key rowOld.api_key (delete_old_key db1 U.id)).1 =
        .error (.httpException 401 "Unauthorized") ∧
      (verify_api_key (m.generate_key U.email ts) (delete_old_key db1 U.id)).1 =
        .ok U := by
  have hKoldne : rowOld.api_key ≠ m.generate_key U.email ts := hnewfresh rowOld hmem
  have hrowkey : (insertedRow db U.id (m.generate_key U.email ts) now).api_key =
      m.generate_key U.email ts := rfl
  have hrowuid : (insertedRow db U.id (m.generate_key U.email ts) now).user_id =
      U.id := rfl
  have hrownotin : insertedRow db U.id (m.generate_key U.email ts) now ∉
      db.user_api_keys :=
    fun hin => hnewfresh _ hin hrowkey
  -- any row of the post-insert store carrying the old key string is rowOld
  have holdunique : ∀ k ∈ db.user_api_keys ++
      [insertedRow db U.id (m.generate_key U.email ts) now],
      k.api_key = rowOld.api_key → k = rowOld := by
    intro k hk hkey
    rcases List.mem_append.mp hk with hk | hk
    · exact List.inj_on_of_nodup_map hkeys hk hmem hkey
    · rw [List.mem_singleton.mp hk] at hkey
      exact absurd hkey.symm hKoldne
  -- any row of the post-insert store carrying the new key string is the new row
  have hnewunique : ∀ k ∈ db.user_api_keys ++
      [insertedRow db U.id (m.generate_key U.email ts) now],
      k.api_key = m.generate_key U.email ts →
      k = insertedRow db U.id (m.generate_key U.email ts) now := by
    intro k hk hkey
    rcases List.mem_append.mp hk with hk | hk
    · exact absurd hkey (hnewfresh k hk)
    · exact List.mem_singleton.mp hk
  have hfoundOld : (db.user_api_keys ++
      [insertedRow db U.id (m.generate_key U.email ts) now]).find?
        (fun x => x.api_key == rowOld.api_key) = some rowOld := by
    have hs : ((db.user_api_keys ++
        [insertedRow db U.id (m.generate_key U.email ts) now]).find?
          (fun x => x.api_key == rowOld.api_key)).isSome :=
      List.find?_isSome.mpr ⟨rowOld, List.mem_append_left _ hmem, by simp⟩
    rcases hf : (db.user_api_keys ++
        [insertedRow db U.id (m.generate_key U.email ts) now]).find?
          (fun x => x.api_key == rowOld.api_key) with _ | k2
    · rw [hf] at hs; cases hs
    · have hk2 : k2 = rowOld :=
        holdunique k2 (List.mem_of_find?_eq_some hf)
          (by simpa using List.find?_some hf)
      exact hk2 ▸ hf
  have hfoundNew : (db.user_api_keys ++
      [insertedRow db U.id (m.generate_key U.email ts) now]).find?
        (fun x => x.api_key == m.generate_key U.email ts) =
      some (insertedRow db U.id (m.generate_key U.email ts) now) := by
    have hnone : db.user_api_keys.find?
        (fun x => x.api_key == m.generate_key U.email ts) = none :=
      List.find?_eq_none.mpr (fun k hk => by simpa using hnewfresh k hk)
    rw [List.find?_append, hnone]
    simp [insertedRow]
  -- the cleanup characterisation on the post-insert store
  have hdel := delete_old_key_keeps_newest
    ⟨db.users, db.user_api_keys ++
      [insertedRow db U.id (m.generate_key U.email ts) now]⟩ U.id
    (insertedRow db U.id (m.generate_key U.email ts) now)
    (List.mem_append_right _ (List.mem_singleton_self _))
    hrowuid
    (by
      intro x hx hxuid hxne
      rcases List.mem_append.mp hx with hx | hx
      · exact holder x hx hxuid
      · exact absurd (List.mem_singleton.mp hx) hxne)
    (by
      rw [List.count_append, List.count_eq_zero.mpr hrownotin]
      simp)
    (by
      intro x hx hxne
      rcases List.mem_append.mp hx with hx | hx
      · have := id_lt_nextKeyId hx
        simp only [insertedRow]
        omega
      · exact absurd (List.mem_singleton.mp hx) hxne)
  obtain ⟨hkeep, hsub, hgone, hfilter⟩ := hdel
  refine ⟨⟨db.users, db.user_api_keys ++
      [insertedRow db U.id (m.generate_key U.email ts) now]⟩,
    ?_, rfl, ?_, ?_, hfilter, ?_, ?_⟩
  · have h := reset_key_ok m pv req db ts now U hfind hpw
    exact h
  · have hbyid2 : db.users.find? (fun x => x.id == rowOld.user_id) = some U := by
      rw [howner]; exact hbyid
    exact congrArg Prod.fst
      (@verify_api_key_found rowOld.api_key
        ⟨db.users, db.user_api_keys ++
          [insertedRow db U.id (m.generate_key U.email ts) now]⟩
        rowOld U hfoundOld hbyid2)
  · exact congrArg Prod.fst
      (@verify_api_key_found (m.generate_key U.email ts)
        ⟨db.users, db.user_api_keys ++
          [insertedRow db U.id (m.generate_key U.email ts) now]⟩
        (insertedRow db U.id (m.generate_key U.email ts) now) U hfoundNew hbyid)
  · -- after cleanup the old key matches no stored row
    have hnone : ((delete_old_key
        ⟨db.users, db.user_api_keys ++
          [insertedRow db U.id (m.generate_key U.email ts) now]⟩
        U.id).user_api_keys).find? (fun x => x.api_key == rowOld.api_key) = none := by
      rw [List.find?_eq_none]
      intro x hx
      simp only [beq_iff_eq]
      intro hxkey
      have hxold : x = rowOld := holdunique x (hsub x hx) hxkey
      subst hxold
      exact hgone x (List.mem_append_left _ hmem) howner
        (fun h => hnewfresh x hmem (congrArg UserAPIKeys.api_key h)) hx
    exact congrArg Prod.fst
      (@verify_api_key_none rowOld.api_key
        (delete_old_key
          ⟨db.users, db.user_api_keys ++
            [insertedRow db U.id (m.generate_key U.email ts) now]⟩ U.id)
        hnone)
  · -- after cleanup the new key still verifies to U
    have hs : (((delete_old_key
        ⟨db.users, db.user_api_keys ++
          [insertedRow db U.id (m.generate_key U.email ts) now]⟩
        U.id).user_api_keys).find?
          (fun x => x.api_key == m.generate_key U.email ts)).isSome :=
      List.find?_isSome.mpr
        ⟨insertedRow db U.id (m.generate_key U.email ts) now, hkeep,
         by simp [hrowkey]⟩
    rcases hf : ((delete_old_key
        ⟨db.users, db.user_api_keys ++
          [insertedRow db U.id (m.generate_key U.email ts) now]⟩
        U.id).user_api_keys).find?
          (fun x => x.api_key == m.generate_key U.email ts) with _ | k2
    · rw [hf] at hs; cases hs
    · have hk2 : k2 = insertedRow db U.id (m.generate_key U.email ts) now :=
        hnewunique k2 (hsub k2 (List.mem_of_find?_eq_some hf))
          (by simpa using List.find?_some hf)
      subst hk2
      exact congrArg Prod.fst
        (@verify_api_key_found (m.generate_key U.email ts)
          (delete_old_key
            ⟨db.users, db.user_api_keys ++
              [insertedRow db U.id (m.generate_key U.email ts) now]⟩ U.id)
          (insertedRow db U.id (m.generate_key U.email ts) now) U hf hbyid)

theorem C1_rotation_grace_window_witness :
    ∃ db1,
      wMgr.reset_key (fun p h => p == "User@123" && h == "hash1")
          ⟨"user@email.com", "User@123"⟩ wDB "1700.5" 10 =
        (.ok (wMgr.generate_key wUser.email "1700.5"), db1, [⟨wUser.id, 5⟩]) ∧
      db1.user_api_keys = wDB.user_api_keys ++
        [insertedRow wDB wUser.id (wMgr.generate_key wUser.email "1700.5") 10] ∧
      (verify_api_key wKey.api_key db1).1 = .ok wUser ∧
      (verify_api_key (wMgr.generate_key wUser.email "1700.5") db1).1 = .ok wUser ∧
      (delete_old_key db1 wUser.id).user_api_keys.filter
          (fun k => k.user_id == wUser.id) =
        [insertedRow wDB wUser.id (wMgr.generate_key wUser.email "1700.5") 10] ∧
      (verify_api_key wKey.api_key (delete_old_key db1 wUser.id)).1 =
        .error (.httpException 401 "Unauthorized") ∧
      (verify_api_key (wMgr.generate_key wUser.email "1700.5")
          (delete_old_key db1 wUser.id)).1 = .ok wUser :=
  C1_rotation_grace_window wMgr (fun p h => p == "User@123" && h == "hash1")
    ⟨"user@email.com", "User@123"⟩ wDB "1700.5" 10 wUser wKey
    (by decide) (by decide) (by decide) (by decide) (by decide) (by decide)
    (by
      intro k hk h
      have hk1 : k = wKey := List.mem_singleton.mp hk
      subst hk1
      have hlen := generate_key_length wMgr wUser.email "1700.5"
      rw [← h] at hlen
      exact absurd hlen (by decide))
    (by decide)

end MLGateway
